import Mathlib

/-!
Verification of the AgriGuard continuous pest-detection pipeline
(`src/services/PestDetectionService.ts` and the scanning hooks) against its
natural-language specification.

Conventions of the shallow embedding:
* TensorFlow prediction scores (JS 64-bit floats in `[0,1]`) are modelled as
  rationals (`ℚ`).  Rational literals are written with `mkRat`.
* `Math.round(x * 100)` on a score is modelled by `jsRound100` computed on the
  numerator/denominator (JS `Math.round` rounds half-way cases up).
* JS `undefined`/`NaN` propagation (`sorted[1]` on a short array is
  `undefined`, `Math.round(undefined * 100)` is `NaN`, and every `<`/`>=`
  comparison against `NaN` is `false`) is modelled by `Option ℤ`: `none`
  plays the role of `NaN`, and `jsLtNum`/`jsGeNum` return `false` on `none`.
* JS string operations `toLowerCase` (on the ASCII labels of the model
  taxonomy), `includes` and `split('. ')` are modelled by `lowerStr`,
  `hasSub` and `splitTreatment`.
* External collaborators (camera, JPEG decoding, the TF model, the pest
  catalog database) are parameters of the embedded functions: a fallible
  stage is an `Except String` value, the catalog is a
  `String → Option PestSpecies` lookup.
-/

/-- JS `Math.round (q * 100)` for a finite rational score `q`:
`⌊100q + 1/2⌋` computed on numerator and denominator so that it reduces in
the kernel. -/
def jsRound100 (q : ℚ) : ℤ := Int.fdiv (200 * q.num + (q.den : ℤ)) (2 * (q.den : ℤ))

/-- JS subtraction where either operand may be `NaN` (`none`). -/
def jsSubNum : Option ℤ → Option ℤ → Option ℤ
  | some a, some b => some (a - b)
  | _, _ => none

/-- JS `a < b` where `a` may be `NaN`: a comparison against `NaN` is `false`. -/
def jsLtNum : Option ℤ → ℤ → Bool
  | some a, b => decide (a < b)
  | none, _ => false

/-- JS `a >= b` where `a` may be `NaN`: a comparison against `NaN` is `false`. -/
def jsGeNum : Option ℤ → ℤ → Bool
  | some a, b => decide (b ≤ a)
  | none, _ => false

/-- ASCII lower-casing of one character (the taxonomy labels are ASCII). -/
def lowerChar (c : Char) : Char :=
  if 65 ≤ c.toNat ∧ c.toNat ≤ 90 then Char.ofNat (c.toNat + 32) else c

/-- JS `String.prototype.toLowerCase` on the ASCII labels. -/
def lowerStr (s : String) : String := ⟨s.data.map lowerChar⟩

/-- Does `p` occur at the head of the second list? -/
def leadMatch : List Char → List Char → Bool
  | [], _ => true
  | _ :: _, [] => false
  | p :: ps, c :: cs => p == c && leadMatch ps cs

/-- JS `String.prototype.includes`: does `p` occur as a contiguous run? -/
def hasSub (p : List Char) : List Char → Bool
  | [] => leadMatch p []
  | c :: cs => leadMatch p (c :: cs) || hasSub p cs

/-- `pestLabel.toLowerCase().includes('no pest')` — the "no pest" sentinel
test of the reconciliation logic. -/
def containsNoPest (label : String) : Bool :=
  hasSub "no pest".data (lowerStr label).data

/-- Accumulator pass of JS `treatment.split('. ')`. -/
def splitDotAux (acc : List Char) : List Char → List (List Char)
  | [] => [acc.reverse]
  | '.' :: ' ' :: rest => acc.reverse :: splitDotAux [] rest
  | c :: rest => splitDotAux (c :: acc) rest

/-- JS `species.treatment.split('. ')`: the treatment text split into steps
on sentence boundaries. -/
def splitTreatment (s : String) : List String :=
  (splitDotAux [] s.data).map fun cs => String.mk cs

/-- JS `Math.max` of two scores. -/
def maxQ (a b : ℚ) : ℚ := if b ≤ a then a else b

/-- JS `Math.max(...predictions)` (`none` on the empty array, whose JS value
`-Infinity` never occurs in the array). -/
def listMaxQ : List ℚ → Option ℚ
  | [] => none
  | x :: xs =>
    match listMaxQ xs with
    | none => some x
    | some m => some (maxQ x m)

/-- JS `Array.prototype.indexOf`: index of the first occurrence (callers only
use it on a present element). -/
def idxOfQ (x : ℚ) : List ℚ → Nat
  | [] => 0
  | y :: ys => if y = x then 0 else idxOfQ x ys + 1

/-- `predictions.indexOf(Math.max(...predictions))` — the argmax index of the
raw score vector. -/
def maxIndexQ (l : List ℚ) : Option Nat :=
  (listMaxQ l).map fun m => idxOfQ m l

/-- One step of the descending insertion sort. -/
def insertDesc (x : ℚ) : List ℚ → List ℚ
  | [] => [x]
  | y :: ys => if y ≤ x then x :: y :: ys else y :: insertDesc x ys

/-- JS `[...predictions].sort((a, b) => b - a)`: the scores in descending
order (as a value the result does not depend on the sorting algorithm). -/
def sortDesc : List ℚ → List ℚ
  | [] => []
  | x :: xs => insertDesc x (sortDesc xs)

/-- The catalog entry for a pest (`PestSpecies` of `DatabaseManager`),
restricted to the fields the detection pipeline reads. -/
structure PestSpecies where
  name : String
  treatment : String
deriving DecidableEq, Repr

/-- Axis-aligned box as returned by the Roboflow localizer
(`{x, y, width, height, confidence, class}`). -/
structure Box where
  x : ℚ
  y : ℚ
  width : ℚ
  height : ℚ
  confidence : ℚ
  cls : String
deriving DecidableEq, Repr

/-- `DetectionResult` of `PestDetectionService.ts`.  Optional TS fields are
`Option`s; a field left out by a TS object literal is `none`. -/
structure DetectionResult where
  detected : Bool
  pestType : Option String
  confidence : Option ℤ
  recommendations : Option (List String)
  species : Option PestSpecies
  rawScores : Option (List ℚ)
  boundingBoxes : Option (List Box)
deriving DecidableEq, Repr

/-- `labels[maxIndex] ?? 'Unknown'` — the winning label of a score vector. -/
def argmaxLabel (labels : List String) (preds : List ℚ) : String :=
  match maxIndexQ preds with
  | some i => labels.getD i "Unknown"
  | none => "Unknown"

/-- The winning raw score (`predictions[maxIndex]`); 0 on the empty vector,
which callers never rely on. -/
def topScore (preds : List ℚ) : ℚ := (listMaxQ preds).getD 0

/-- `Math.round(predictions[maxIndex] * 100)` as an optional integer —
`none` on the empty vector (the JS value would be `NaN`). -/
def scaledArgmax (preds : List ℚ) : Option ℤ :=
  (maxIndexQ preds).bind fun i => (preds[i]?).map jsRound100

/-- `Math.round(sorted[1] * 100)` as an optional integer — `none` when the
vector has fewer than two entries (the JS value would be `NaN`). -/
def scaledSecond (preds : List ℚ) : Option ℤ :=
  ((sortDesc preds)[1]?).map jsRound100

/-- The second-highest raw score (`sorted[1]`); 0 when the vector has fewer
than two entries, in which case callers must not rely on it. -/
def secondScore (preds : List ℚ) : ℚ := (sortDesc preds).getD 1 0

/-- `aiDetection` of `PestDetectionService.ts` (primary service), the
reconciliation step from the raw score vector to a `DetectionResult`.
`lookup` stands for `databaseManager.getPestSpeciesByName`. -/
def aiDetection (lookup : String → Option PestSpecies) (labels : List String)
    (predictions : List ℚ) : DetectionResult :=
  let pestLabel := argmaxLabel labels predictions
  let confidence := scaledArgmax predictions
  let isNoPest := containsNoPest pestLabel
  let secondConfidence := scaledSecond predictions
  let diff := jsSubNum confidence secondConfidence
  let likelyNoise := jsLtNum confidence 90 || jsLtNum diff 10
  if isNoPest || likelyNoise then
    { detected := false
      pestType := some ""
      confidence := confidence
      recommendations := some ["Continue monitoring"]
      species := none
      rawScores := some predictions
      boundingBoxes := none }
  else
    let species := lookup pestLabel
    { detected := true
      pestType := some pestLabel
      confidence := confidence
      recommendations := some (match species with
        | some s => splitTreatment s.treatment
        | none => ["Apply treatment"])
      species := species
      rawScores := some predictions
      boundingBoxes := none }

/-- `aiDetection` of the parallel service variant (`src/unnamed/part_002` and
the second `PestDetectionService` version): identical decision logic, but the
catalog-miss fallback is the two-item list and the rejection advice has a
second line. -/
def aiDetectionAlt (lookup : String → Option PestSpecies) (labels : List String)
    (predictions : List ℚ) : DetectionResult :=
  let pestLabel := argmaxLabel labels predictions
  let confidence := scaledArgmax predictions
  let isNoPest := containsNoPest pestLabel
  let secondConfidence := scaledSecond predictions
  let diff := jsSubNum confidence secondConfidence
  let likelyNoise := jsLtNum confidence 90 || jsLtNum diff 10
  if isNoPest || likelyNoise then
    { detected := false
      pestType := some ""
      confidence := confidence
      recommendations := some ["Continue monitoring", "No immediate action required"]
      species := none
      rawScores := some predictions
      boundingBoxes := none }
  else
    let species := lookup pestLabel
    { detected := true
      pestType := some pestLabel
      confidence := confidence
      recommendations := some (match species with
        | some s => splitTreatment s.treatment
        | none => ["Apply appropriate treatment", "Monitor affected areas"])
      species := species
      rawScores := some predictions
      boundingBoxes := none }

example : jsRound100 (mkRat 95 100) = 95 := by decide
example :
    (aiDetection (fun _ => none)
      ["Rice Black Bug", "no pest", "Grasshoppers", "Golden Apple Snail"]
      [mkRat 95 100, mkRat 2 100, mkRat 2 100, mkRat 1 100]).detected = true := by decide
example :
    (aiDetection (fun _ => none)
      ["Grasshoppers", "no pest"] [mkRat 55 100, mkRat 50 100]).detected = false := by decide
example :
    (aiDetection (fun _ => none)
      ["Rice Field Rat", "no pest"] [mkRat 40 100, mkRat 97 100]).detected = false := by decide

/-- The mutable scan flags of the service
(`isScanning` / `isProcessing` of `PestDetectionService`). -/
structure ScanState where
  isScanning : Bool
  isProcessing : Bool
deriving DecidableEq, Repr

/-- A captured camera photo (`takePictureAsync` result): optional base64
payload plus source URI. -/
structure Photo where
  base64 : Option String
  uri : String
deriving DecidableEq, Repr

/-- One tick of `startNativeScanning`'s `setInterval` callback (primary
service).  The awaited stages are inputs: `capture` is
`cameraRef.current.takePictureAsync`, `infer photo` is the
decode → resize → normalize → `model.predict` chain producing the raw score
vector.  Returns the state after the tick together with the list of
`DetectionResult`s handed to the detection callbacks during the tick.
Any stage error is caught by the tick's `catch` (logged) and the `finally`
resets `isProcessing`. -/
def nativeScanTick (lookup : String → Option PestSpecies) (labels : List String)
    (cameraPresent : Bool) (capture : Except String Photo)
    (infer : Photo → Except String (List ℚ))
    (st : ScanState) : ScanState × List DetectionResult :=
  if st.isProcessing then (st, [])
  else
    if ¬ cameraPresent then ({ st with isProcessing := false }, [])
    else
      match capture with
      | .error _ => ({ st with isProcessing := false }, [])
      | .ok photo =>
        match photo.base64 with
        | none => ({ st with isProcessing := false }, [])
        | some _ =>
          match infer photo with
          | .error _ => ({ st with isProcessing := false }, [])
          | .ok predictions =>
            let pestLabel := argmaxLabel labels predictions
            let confidence := scaledArgmax predictions
            let isNoPest := containsNoPest pestLabel
            if jsGeNum confidence 75 && !isNoPest then
              let species := lookup pestLabel
              ({ st with isProcessing := false },
               [{ detected := true
                  pestType := some pestLabel
                  confidence := confidence
                  recommendations := some (match species with
                    | some s => splitTreatment s.treatment
                    | none => [])
                  species := species
                  rawScores := some predictions
                  boundingBoxes := some [] }])
            else
              ({ st with isProcessing := false },
               [{ detected := false
                  pestType := none
                  confidence := confidence
                  recommendations := some []
                  species := none
                  rawScores := none
                  boundingBoxes := some [] }])

/-- `analyzeImage` of the primary service: awaits `aiDetection` with no
`try`/`catch`, persists a history row when `detected`, and returns the
result.  The `Bool` records whether `addPestDetection` was called. -/
def analyzeImage (aiOutcome : Except String DetectionResult) :
    Except String (DetectionResult × Bool) :=
  match aiOutcome with
  | .error e => .error e
  | .ok r => .ok (r, r.detected)

/-- `startWebScanning`'s callback fan-out
(`detectionCallbacks.forEach(cb => { try { cb(result) } catch ... })`).
An observer is a `Bool` saying whether its callback throws on this event;
the result counts the observers whose callback body was entered. -/
def dispatchWeb : List Bool → Nat
  | [] => 0
  | _ :: rest => 1 + dispatchWeb rest

/-- `startNativeScanning`'s callback fan-out
(`detectionCallbacks.forEach(cb => cb(result))`, no per-observer guard):
a throwing observer aborts the `forEach`, so delivery stops after it. -/
def dispatchNative : List Bool → Nat
  | [] => 0
  | throws :: rest => if throws then 1 else 1 + dispatchNative rest

/-- The lazy-load state of the classifier model:
`this.model`, `this.modelLoadPromise` and a count of underlying loads
actually started. -/
structure ClassifierState where
  model : Option Nat
  loadInFlight : Bool
  loadsStarted : Nat
deriving DecidableEq, Repr

/-- Events of the model-load lifecycle: a `loadModel()` call arriving
(from `classify`/`aiDetection`/pre-loading), the in-flight load resolving
with a model instance, or rejecting. -/
inductive LoadEv
  | request
  | succeed (m : Nat)
  | fail
deriving DecidableEq, Repr

/-- What a `loadModel()` call returns to its caller. -/
inductive LoadOutcome
  | cached (m : Nat)
  | awaits
  | starts
deriving DecidableEq, Repr

/-- The synchronous prefix of `loadModel` (primary service):
return `this.model` if set, else join `this.modelLoadPromise` if set,
else install a fresh load promise. -/
def loadOutcome (s : ClassifierState) : LoadOutcome :=
  match s.model with
  | some m => .cached m
  | none => if s.loadInFlight then .awaits else .starts

/-- State transition of the model-load lifecycle, following `loadModel`:
a request starts a load only when neither `model` nor `modelLoadPromise`
is set; success caches `this.model` (the promise field is left in place);
failure clears both (`this.model = null; this.modelLoadPromise = null`). -/
def loadStep (s : ClassifierState) : LoadEv → ClassifierState
  | .request =>
    match loadOutcome s with
    | .cached _ => s
    | .awaits => s
    | .starts => { s with loadInFlight := true, loadsStarted := s.loadsStarted + 1 }
  | .succeed m =>
    if s.loadInFlight then { s with model := some m } else s
  | .fail =>
    if s.loadInFlight then { s with model := none, loadInFlight := false } else s

/-- Fresh service: no model, no load in flight. -/
def loadInit : ClassifierState := ⟨none, false, 0⟩

/-- Run a sequence of load-lifecycle events from the fresh service. -/
def loadRun (evs : List LoadEv) : ClassifierState := evs.foldl loadStep loadInit

/-- Scheduler events of a continuous-scan loop: a timer tick firing the
interval callback, or the oldest in-flight iteration's async chain
resolving. -/
inductive LoopEv
  | tick
  | finish
deriving DecidableEq, Repr

/-- Trace state of a scan loop under the cooperative scheduler: the
`isProcessing` guard, the in-flight iterations (as the indices of the frames
they captured, oldest first), and the capture/delivery histories. -/
structure LoopState where
  isProcessing : Bool
  pending : List Nat
  captured : List Nat
  delivered : List Nat
deriving DecidableEq, Repr

/-- Loop at rest: nothing captured, nothing in flight. -/
def loopInit : LoopState := ⟨false, [], [], []⟩

/-- The service's scan loop (`startNativeScanning`/`startWebScanning`):
the interval callback first checks `isProcessing` and returns, otherwise
sets it and starts an iteration; the iteration's `finally` resets the flag
when its chain resolves, delivering its event. -/
def serviceStep (s : LoopState) : LoopEv → LoopState
  | .tick =>
    if s.isProcessing then s
    else
      { isProcessing := true
        pending := s.pending ++ [s.captured.length]
        captured := s.captured ++ [s.captured.length]
        delivered := s.delivered }
  | .finish =>
    match s.pending with
    | [] => s
    | f :: rest =>
      { isProcessing := false
        pending := rest
        captured := s.captured
        delivered := s.delivered ++ [f] }

/-- The `usePestScanner` hook's loop
(`setInterval(() => running && loop(), INTERVAL_MS)`): every tick starts a
new async iteration, with no in-flight guard. -/
def hookStep (s : LoopState) : LoopEv → LoopState
  | .tick =>
    { isProcessing := s.isProcessing
      pending := s.pending ++ [s.captured.length]
      captured := s.captured ++ [s.captured.length]
      delivered := s.delivered }
  | .finish =>
    match s.pending with
    | [] => s
    | f :: rest =>
      { isProcessing := s.isProcessing
        pending := rest
        captured := s.captured
        delivered := s.delivered ++ [f] }

/-- Run the service loop on a scheduler trace. -/
def serviceRun (evs : List LoopEv) : LoopState := evs.foldl serviceStep loopInit

/-- Run the hook loop on a scheduler trace. -/
def hookRun (evs : List LoopEv) : LoopState := evs.foldl hookStep loopInit

/-- Lifecycle state of the scan controller: `isScanning`, `isProcessing`,
whether `scanningInterval` is non-null, and how many periodic interval
timers are currently running (created minus cleared). -/
structure SvcState where
  isScanning : Bool
  isProcessing : Bool
  intervalSet : Bool
  activeTimers : Nat
deriving DecidableEq, Repr

/-- `startContinuousScanning` (primary service), run to completion:
no-op when already scanning; `initOk` is the outcome of the awaited
TensorFlow/model pre-initialization (on failure the method alerts and
returns without scanning); `spawnOk` says whether the chosen
`startWebScanning`/`startNativeScanning` body reached its `setInterval`
(the native body returns early when the camera ref or model is missing). -/
def svcStart (initOk spawnOk : Bool) (s : SvcState) : SvcState :=
  if s.isScanning then s
  else if ¬ initOk then s
  else
    if spawnOk then
      { s with isScanning := true, intervalSet := true,
               activeTimers := s.activeTimers + 1 }
    else { s with isScanning := true }

/-- `stopContinuousScanning`: no-op when idle; otherwise clears the flags
and cancels the interval timer when one is set. -/
def svcStop (s : SvcState) : SvcState :=
  if ¬ s.isScanning then s
  else
    { isScanning := false
      isProcessing := false
      intervalSet := false
      activeTimers := if s.intervalSet then s.activeTimers - 1 else s.activeTimers }

/-- A start/stop call issued by the UI. -/
inductive SvcOp
  | start (initOk spawnOk : Bool)
  | stop
deriving DecidableEq, Repr

/-- Apply one controller call. -/
def applySvcOp (s : SvcState) : SvcOp → SvcState
  | .start initOk spawnOk => svcStart initOk spawnOk s
  | .stop => svcStop s

/-- Controller at rest. -/
def svcInit : SvcState := ⟨false, false, false, 0⟩

/-- Run a sequence of controller calls from the idle service. -/
def svcRun (ops : List SvcOp) : SvcState := ops.foldl applySvcOp svcInit

/-- One tick of `startNativeScanning` in the parallel service variant
(`src/unnamed/part_002`): the frame goes to the Roboflow detection endpoint
(`fetchBoxes`), and the tick accepts iff there is at least one returned box
and the first box's confidence is at least 0.5.  No classifier stage exists
on this path.  Zero boxes short-circuit to a `detected=false` event with
empty `boundingBoxes`. -/
def nativeScanTickV2 (lookup : String → Option PestSpecies)
    (cameraPresent : Bool) (capture : Except String Photo)
    (fetchBoxes : Except String (List Box))
    (st : ScanState) : ScanState × List DetectionResult :=
  if st.isProcessing then (st, [])
  else
    if ¬ cameraPresent then ({ st with isProcessing := false }, [])
    else
      match capture with
      | .error _ => ({ st with isProcessing := false }, [])
      | .ok photo =>
        match photo.base64 with
        | none => ({ st with isProcessing := false }, [])
        | some _ =>
          match fetchBoxes with
          | .error _ => ({ st with isProcessing := false }, [])
          | .ok detections =>
            match detections with
            | [] =>
              ({ st with isProcessing := false },
               [{ detected := false
                  pestType := none
                  confidence := some 0
                  recommendations := some []
                  species := none
                  rawScores := none
                  boundingBoxes := some [] }])
            | d :: _ =>
              if mkRat 1 2 ≤ d.confidence then
                let species := lookup d.cls
                ({ st with isProcessing := false },
                 [{ detected := true
                    pestType := some d.cls
                    confidence := some (jsRound100 d.confidence)
                    recommendations := some (match species with
                      | some s => splitTreatment s.treatment
                      | none => [])
                    species := species
                    rawScores := none
                    boundingBoxes := some (detections.map fun b =>
                      { b with x := Rat.sub b.x (Rat.div b.width 2),
                               y := Rat.sub b.y (Rat.div b.height 2) }) }])
              else
                ({ st with isProcessing := false },
                 [{ detected := false
                    pestType := none
                    confidence := some (jsRound100 d.confidence)
                    recommendations := some []
                    species := none
                    rawScores := none
                    boundingBoxes := some [] }])

/-- A COCO-SSD proposal (`{bbox, class, score}`) as consumed by the
`usePestDetection` hook. -/
structure CocoDet where
  bbox : List ℚ
  cls : String
  score : ℚ
deriving DecidableEq, Repr

/-- `usePestDetection`'s COCO score threshold (`MIN_CONFIDENCE = 0.4`). -/
def hookMinConfidence : ℚ := mkRat 2 5

/-- `usePestDetection`'s allow-list of COCO classes
(`Object.values(COCO_CLASS_MAP).flat()` deduplicated into a `Set`). -/
def allowedCocoClasses : List String := ["bird", "mouse"]

/-- The per-detection body of `usePestDetection`'s `runLoop`: skip proposals
below the score threshold or outside the allow-list; otherwise crop and run
`analyzeImage` on the crop (`classify`, counted), emitting a detection event
(`handleDetection`) only when the classifier says `detected`.  A crop or
classification error is caught per region and the loop continues. -/
def runLoopRegions (classify : CocoDet → Except String DetectionResult) :
    List CocoDet → List DetectionResult × Nat
  | [] => ([], 0)
  | det :: rest =>
    if det.score < hookMinConfidence then runLoopRegions classify rest
    else if ¬ allowedCocoClasses.contains det.cls then runLoopRegions classify rest
    else
      let tail := runLoopRegions classify rest
      match classify det with
      | .error _ => (tail.1, tail.2 + 1)
      | .ok r => (if r.detected then r :: tail.1 else tail.1, tail.2 + 1)

/-- One iteration of `usePestDetection`'s `runLoop`: returns the events
handed to `handleDetection` and the number of classifier (`analyzeImage`)
invocations.  Missing camera, missing COCO model, capture failure, missing
base64 data, a failed `cocoModel.detect`, and an empty proposal list all
`return` without emitting anything. -/
def runLoopIteration (cameraPresent cocoLoaded : Bool)
    (capture : Except String Photo)
    (detect : Except String (List CocoDet))
    (classify : CocoDet → Except String DetectionResult) :
    List DetectionResult × Nat :=
  if ¬ cameraPresent then ([], 0)
  else if ¬ cocoLoaded then ([], 0)
  else
    match capture with
    | .error _ => ([], 0)
    | .ok photo =>
      match photo.base64 with
      | none => ([], 0)
      | some _ =>
        match detect with
        | .error _ => ([], 0)
        | .ok detections =>
          if detections.length = 0 then ([], 0)
          else runLoopRegions classify detections

/-- `addDetectionCallback`: push the callback only when it is not already
registered.  Callbacks are identified by their (reference) identity, here a
`Nat`. -/
def addDetectionCallback (cbs : List Nat) (f : Nat) : List Nat :=
  if cbs.contains f then cbs else cbs ++ [f]

/-- `removeDetectionCallback`: keep exactly the callbacks that are not `f`. -/
def removeDetectionCallback (cbs : List Nat) (f : Nat) : List Nat :=
  cbs.filter fun cb => cb ≠ f

/-- A registry call. -/
inductive CbOp
  | add (f : Nat)
  | remove (f : Nat)
deriving DecidableEq, Repr

/-- Apply one registry call. -/
def applyCbOp (cbs : List Nat) : CbOp → List Nat
  | .add f => addDetectionCallback cbs f
  | .remove f => removeDetectionCallback cbs f

/-- Run a sequence of registry calls from the initial empty callback list. -/
def runCbOps (ops : List CbOp) : List Nat := ops.foldl applyCbOp []

theorem listMaxQ_mem : ∀ {l : List ℚ} {m : ℚ}, listMaxQ l = some m → m ∈ l := by
  intro l
  induction l with
  | nil => intro m h; simp [listMaxQ] at h
  | cons x xs ih =>
    intro m h
    simp only [listMaxQ] at h
    cases hxs : listMaxQ xs with
    | none => rw [hxs] at h; simp at h; simp [h]
    | some m' =>
      rw [hxs] at h
      simp at h
      subst h
      unfold maxQ
      by_cases hle : m' ≤ x
      · simp [hle]
      · simp [hle]
        exact Or.inr (ih hxs)

theorem listMaxQ_isSome {l : List ℚ} (h : l ≠ []) : ∃ m, listMaxQ l = some m := by
  cases l with
  | nil => exact absurd rfl h
  | cons x xs =>
    simp only [listMaxQ]
    cases listMaxQ xs <;> simp

theorem getElem_idxOfQ : ∀ {l : List ℚ} {m : ℚ}, m ∈ l → l[idxOfQ m l]? = some m := by
  intro l
  induction l with
  | nil => intro m h; simp at h
  | cons y ys ih =>
    intro m h
    simp only [idxOfQ]
    by_cases hy : y = m
    · simp [hy]
    · simp only [hy, if_false]
      have hm : m ∈ ys := by
        rcases List.mem_cons.mp h with h1 | h1
        · exact absurd h1.symm hy
        · exact h1
      simpa using ih hm

theorem scaledArgmax_eq {l : List ℚ} (h : l ≠ []) :
    scaledArgmax l = some (jsRound100 (topScore l)) := by
  obtain ⟨m, hm⟩ := listMaxQ_isSome h
  have hmem := listMaxQ_mem hm
  simp [scaledArgmax, maxIndexQ, topScore, hm, getElem_idxOfQ hmem]

theorem insertDesc_length (x : ℚ) : ∀ l : List ℚ, (insertDesc x l).length = l.length + 1 := by
  intro l
  induction l with
  | nil => rfl
  | cons y ys ih =>
    simp only [insertDesc]
    by_cases hle : y ≤ x
    · simp [hle]
    · simp [hle, ih]

theorem sortDesc_length : ∀ l : List ℚ, (sortDesc l).length = l.length := by
  intro l
  induction l with
  | nil => rfl
  | cons x xs ih => simp [sortDesc, insertDesc_length, ih]

theorem scaledSecond_eq {l : List ℚ} (h : 2 ≤ l.length) :
    scaledSecond l = some (jsRound100 (secondScore l)) := by
  have hlen : 1 < (sortDesc l).length := by rw [sortDesc_length]; omega
  rw [scaledSecond, secondScore, List.getElem?_eq_getElem hlen,
    List.getD_eq_getElem (sortDesc l) 0 hlen]
  rfl


/-- C1: For a score vector with at least two entries, the primary service's
`aiDetection` yields `detected=false` exactly when the winning label
case-insensitively contains "no pest", or the scaled argmax confidence is
below 90, or the margin (scaled argmax minus scaled second-highest) is below
10; otherwise it yields `detected=true` with `pestType` the winning label
and `confidence` the scaled argmax.  (The claim's extension to the
continuous-scan paths fails, see the counterexample: the native scan loop
accepts at confidence ≥ 75 with no margin test.) -/
theorem aiDetection_noise_rejection (lookup : String → Option PestSpecies)
    (labels : List String) (preds : List ℚ) (h : 2 ≤ preds.length) :
    ((aiDetection lookup labels preds).detected = false ↔
      (containsNoPest (argmaxLabel labels preds) = true
        ∨ jsRound100 (topScore preds) < 90
        ∨ jsRound100 (topScore preds) - jsRound100 (secondScore preds) < 10))
    ∧ (aiDetection lookup labels preds).confidence = some (jsRound100 (topScore preds))
    ∧ ((aiDetection lookup labels preds).detected = true →
        (aiDetection lookup labels preds).pestType = some (argmaxLabel labels preds)) := by
  have h0 : preds ≠ [] := by intro e; subst e; simp at h
  have hA := scaledArgmax_eq h0
  have hS := scaledSecond_eq h
  refine ⟨?_, ?_, ?_⟩ <;>
    simp only [aiDetection, hA, hS, jsSubNum, jsLtNum] <;>
    cases h1 : containsNoPest (argmaxLabel labels preds) <;>
    by_cases h2 : jsRound100 (topScore preds) < 90 <;>
    by_cases h3 : jsRound100 (topScore preds) - jsRound100 (secondScore preds) < 10 <;>
    simp [h1, h2, h3]

/-- C1 witness: end-to-end scenario A, score vector `[0.95, 0.02, 0.02, 0.01]`
over the four taxonomy labels: no rejection condition holds, so
`detected=true`, `pestType="Rice Black Bug"`, `confidence=95`. -/
theorem aiDetection_noise_rejection_scenarioA :
    ((aiDetection (fun _ => none)
        ["Rice Black Bug", "no pest", "Grasshoppers", "Golden Apple Snail"]
        [mkRat 95 100, mkRat 2 100, mkRat 2 100, mkRat 1 100]).detected = true)
    ∧ ((aiDetection (fun _ => none)
        ["Rice Black Bug", "no pest", "Grasshoppers", "Golden Apple Snail"]
        [mkRat 95 100, mkRat 2 100, mkRat 2 100, mkRat 1 100]).pestType
        = some "Rice Black Bug")
    ∧ ((aiDetection (fun _ => none)
        ["Rice Black Bug", "no pest", "Grasshoppers", "Golden Apple Snail"]
        [mkRat 95 100, mkRat 2 100, mkRat 2 100, mkRat 1 100]).confidence = some 95) := by
  obtain ⟨hiff, hconf, hpest⟩ := aiDetection_noise_rejection (fun _ => none)
    ["Rice Black Bug", "no pest", "Grasshoppers", "Golden Apple Snail"]
    [mkRat 95 100, mkRat 2 100, mkRat 2 100, mkRat 1 100] (by decide)
  have hdet : (aiDetection (fun _ => none)
      ["Rice Black Bug", "no pest", "Grasshoppers", "Golden Apple Snail"]
      [mkRat 95 100, mkRat 2 100, mkRat 2 100, mkRat 1 100]).detected = true := by
    cases hd : (aiDetection (fun _ => none)
        ["Rice Black Bug", "no pest", "Grasshoppers", "Golden Apple Snail"]
        [mkRat 95 100, mkRat 2 100, mkRat 2 100, mkRat 1 100]).detected
    · exact absurd (hiff.mp hd) (by decide)
    · rfl
  exact ⟨hdet, (hpest hdet).trans (by decide), hconf.trans (by decide)⟩

/-- C1 counterexample: the native continuous-scan path emits `detected=true`
for the score vector `[0.8, 0.1]` (scaled argmax confidence 80 < 90), so the
claimed rule does not hold on every detection-emitting path. -/
theorem nativeScan_accepts_below_ninety :
    jsRound100 (topScore [mkRat 8 10, mkRat 1 10]) = 80
    ∧ (80 : ℤ) < 90
    ∧ ((nativeScanTick (fun _ => none) ["Rice Black Bug", "no pest"] true
          (.ok ⟨some "jpegdata", "photo.jpg"⟩)
          (fun _ => .ok [mkRat 8 10, mkRat 1 10])
          ⟨true, false⟩).2.map DetectionResult.detected) = [true] := by decide

/-- The in-flight invariant of the service's scan loop: the guard mirrors
whether an iteration is in flight, at most one iteration is ever in flight,
and the capture history is exactly the delivery history followed by the
in-flight iterations. -/
def serviceInv (s : LoopState) : Prop :=
  s.isProcessing = !s.pending.isEmpty
  ∧ s.pending.length ≤ 1
  ∧ s.captured = s.delivered ++ s.pending

theorem serviceStep_inv {s : LoopState} (hInv : serviceInv s) (e : LoopEv) :
    serviceInv (serviceStep s e) := by
  obtain ⟨hp, hlen, hcap⟩ := hInv
  cases e with
  | tick =>
    cases hx : s.isProcessing with
    | true =>
      have hstep : serviceStep s .tick = s := by simp [serviceStep, hx]
      rw [hstep]
      exact ⟨hp, hlen, hcap⟩
    | false =>
      have hpe : s.pending = [] := by
        rw [hx] at hp
        cases hy : s.pending with
        | nil => rfl
        | cons a l => rw [hy] at hp; simp at hp
      refine ⟨?_, ?_, ?_⟩ <;> simp [serviceInv, serviceStep, hx, hpe, hcap]
  | finish =>
    cases hx : s.pending with
    | nil =>
      have hstep : serviceStep s .finish = s := by simp [serviceStep, hx]
      rw [hstep]
      exact ⟨hp, hlen, hcap⟩
    | cons f rest =>
      have hrest : rest = [] := by
        rw [hx] at hlen
        simpa using hlen
      subst hrest
      refine ⟨?_, ?_, ?_⟩ <;> simp [serviceStep, hx, hcap]

theorem serviceRun_inv (evs : List LoopEv) : serviceInv (serviceRun evs) := by
  have hgen : ∀ (l : List LoopEv) (s : LoopState), serviceInv s →
      serviceInv (l.foldl serviceStep s) := by
    intro l
    induction l with
    | nil => intro s hs; exact hs
    | cons e l ih => intro s hs; exact ih _ (serviceStep_inv hs e)
  exact hgen evs loopInit ⟨rfl, by simp [loopInit], by simp [loopInit]⟩

/-- C2 (amended): in the service's continuous-scan loop the `isProcessing`
guard ensures strict sequentiality: on every scheduler trace at most one
iteration is in flight, and the delivery history is a prefix of the capture
history in capture order (events are delivered in the order their frames
were captured).  (The claim's extension to every scan loop fails, see the
counterexample: the `usePestScanner` hook's loop has no in-flight guard.) -/
theorem serviceLoop_sequential (evs : List LoopEv) :
    (serviceRun evs).pending.length ≤ 1
    ∧ (serviceRun evs).captured = (serviceRun evs).delivered ++ (serviceRun evs).pending
    ∧ (serviceRun evs).isProcessing = !(serviceRun evs).pending.isEmpty := by
  obtain ⟨hp, hlen, hcap⟩ := serviceRun_inv evs
  exact ⟨hlen, hcap, hp⟩

/-- C2 counterexample: in the `usePestScanner` hook's loop, two timer ticks
while the first iteration's chain is unresolved leave two iterations in
flight — a second iteration begins before the first resolves. -/
theorem hookLoop_overlapping_iterations :
    (hookRun [LoopEv.tick, LoopEv.tick]).pending.length = 2
    ∧ (hookRun [LoopEv.tick, LoopEv.tick]).delivered = [] := by decide

/-- Reachability invariant of the load lifecycle on failure-free traces:
at most one load has ever started, no load means a bare state, and the one
load (if any) keeps its promise installed. -/
def loadInv (s : ClassifierState) : Prop :=
  s.loadsStarted ≤ 1
  ∧ (s.loadsStarted = 0 → s.model = none ∧ s.loadInFlight = false)
  ∧ (s.loadsStarted = 1 → s.loadInFlight = true)

theorem loadStep_inv {s : ClassifierState} (hInv : loadInv s) {e : LoadEv}
    (he : e ≠ .fail) : loadInv (loadStep s e) := by
  obtain ⟨h1, h2, h3⟩ := hInv
  cases e with
  | request =>
    simp only [loadStep]
    cases hm : s.model with
    | some m => simpa [loadOutcome, hm] using ⟨h1, h2, h3⟩
    | none =>
      cases hf : s.loadInFlight with
      | true => simpa [loadOutcome, hm, hf] using ⟨h1, h2, h3⟩
      | false =>
        have hz : s.loadsStarted = 0 := by
          rcases Nat.lt_or_ge s.loadsStarted 1 with hlt | hge
          · omega
          · have : s.loadsStarted = 1 := by omega
            rw [this] at h3
            rw [h3 rfl] at hf
            cases hf
        simp [loadOutcome, hm, hf, hz]
        exact ⟨by decide, fun h => absurd h (by decide), fun _ => rfl⟩
  | succeed m =>
    simp only [loadStep]
    cases hf : s.loadInFlight with
    | false => simpa using ⟨h1, h2, h3⟩
    | true =>
      have h1' : s.loadsStarted = 1 := by
        rcases Nat.lt_or_ge s.loadsStarted 1 with hlt | hge
        · have hz : s.loadsStarted = 0 := by omega
          rw [(h2 hz).2] at hf
          cases hf
        · omega
      simp [h1', hf]
      exact ⟨Nat.le_refl 1, fun h => absurd h Nat.one_ne_zero, fun _ => rfl⟩
  | fail => exact absurd rfl he

theorem loadRun_inv (evs : List LoadEv) (hnf : LoadEv.fail ∉ evs) :
    loadInv (loadRun evs) := by
  have hgen : ∀ (l : List LoadEv) (s : ClassifierState), loadInv s →
      LoadEv.fail ∉ l → loadInv (l.foldl loadStep s) := by
    intro l
    induction l with
    | nil => intro s hs _; exact hs
    | cons e l ih =>
      intro s hs hl
      have he : e ≠ .fail := fun h => hl (h ▸ List.mem_cons_self e l)
      have hl' : LoadEv.fail ∉ l := fun h => hl (List.mem_cons_of_mem e h)
      exact ih _ (loadStep_inv hs he) hl'
  exact hgen evs loadInit ⟨by simp [loadInit], fun _ => ⟨rfl, rfl⟩, by simp [loadInit]⟩ hnf

/-- C3: the classifier model load is lazy and single-flight.  A `loadModel`
call arriving while a load is in flight joins it and starts nothing; once
`this.model` is cached every later call returns it unchanged; on every
failure-free call sequence at most one underlying load ever starts; and in
particular two concurrent calls on the fresh service trigger exactly one
load. -/
theorem loadModel_single_flight :
    (∀ s : ClassifierState, s.model = none → s.loadInFlight = true →
      loadStep s .request = s ∧ loadOutcome s = .awaits)
    ∧ (∀ (s : ClassifierState) (m : Nat), s.model = some m →
      loadStep s .request = s ∧ loadOutcome s = .cached m)
    ∧ (∀ evs : List LoadEv, LoadEv.fail ∉ evs → (loadRun evs).loadsStarted ≤ 1)
    ∧ (loadRun [LoadEv.request, LoadEv.request]).loadsStarted = 1 := by
  refine ⟨?_, ?_, ?_, by decide⟩
  · intro s hm hf
    constructor
    · simp [loadStep, loadOutcome, hm, hf]
    · simp [loadOutcome, hm, hf]
  · intro s m hm
    constructor
    · simp [loadStep, loadOutcome, hm]
    · simp [loadOutcome, hm]
  · intro evs hnf
    exact (loadRun_inv evs hnf).1

/-- C3 witness: two `loadModel` calls issued before the first load resolves
(the spec's concurrent-`classify` test) start exactly one underlying load,
and a call after a successful load returns the cached instance. -/
theorem loadModel_single_flight_witness :
    (loadRun [LoadEv.request, LoadEv.request]).loadsStarted ≤ 1
    ∧ loadStep ⟨some 7, true, 1⟩ .request = ⟨some 7, true, 1⟩
    ∧ loadOutcome ⟨some 7, true, 1⟩ = .cached 7 := by
  refine ⟨loadModel_single_flight.2.2.1 [LoadEv.request, LoadEv.request] (by decide), ?_, ?_⟩
  · exact (loadModel_single_flight.2.1 ⟨some 7, true, 1⟩ 7 rfl).1
  · exact (loadModel_single_flight.2.1 ⟨some 7, true, 1⟩ 7 rfl).2

/-- C4: during a continuous-scan tick any stage failure (camera capture or
the decode/predict chain) is caught at the loop level and treated as
skipping the tick: no event is emitted, `isScanning` is untouched (the loop
keeps running) and the `finally` resets `isProcessing`; whereas a stage
error in the single-shot `analyzeImage` path propagates unchanged to the
caller, and a successful single-shot result is returned as-is (persisting a
history row exactly when `detected`). -/
theorem scanTick_error_policy :
    (∀ (lookup : String → Option PestSpecies) (labels : List String)
        (infer : Photo → Except String (List ℚ)) (st : ScanState) (e : String),
      st.isProcessing = false →
      nativeScanTick lookup labels true (.error e) infer st
        = ({ st with isProcessing := false }, []))
    ∧ (∀ (lookup : String → Option PestSpecies) (labels : List String)
        (photo : Photo) (infer : Photo → Except String (List ℚ))
        (st : ScanState) (e : String),
      st.isProcessing = false → infer photo = .error e →
      nativeScanTick lookup labels true (.ok photo) infer st
        = ({ st with isProcessing := false }, []))
    ∧ (∀ e : String, analyzeImage (.error e) = .error e)
    ∧ (∀ r : DetectionResult, analyzeImage (.ok r) = .ok (r, r.detected)) := by
  refine ⟨?_, ?_, fun e => rfl, fun r => rfl⟩
  · intro lookup labels infer st e hst
    simp [nativeScanTick, hst]
  · intro lookup labels photo infer st e hst hinf
    cases hb : photo.base64 with
    | none => simp [nativeScanTick, hst, hb]
    | some s => simp [nativeScanTick, hst, hb, hinf]

/-- C4 witness: a concrete failing capture inside a running scan emits no
event and leaves the loop scanning with the in-flight flag reset, while the
same error in the single-shot path propagates. -/
theorem scanTick_error_policy_witness :
    nativeScanTick (fun _ => none) ["Rice Black Bug"] true (.error "capture failed")
        (fun _ => .ok []) ⟨true, false⟩ = (⟨true, false⟩, [])
    ∧ analyzeImage (.error "capture failed") = .error "capture failed" := by
  constructor
  · exact scanTick_error_policy.1 (fun _ => none) ["Rice Black Bug"]
      (fun _ => .ok []) ⟨true, false⟩ "capture failed" rfl
  · exact scanTick_error_policy.2.2.1 "capture failed"

/-- C5 (amended): for every accepted (`detected=true`) verdict, the emitted
recommendations are the catalog entry's treatment text split on sentence
boundaries when the winning label is in the catalog; when it is absent, the
primary service's `aiDetection` falls back to the one-item list
`["Apply treatment"]`, and only the variant `aiDetectionAlt` uses the
claimed two-item fallback
`["Apply appropriate treatment", "Monitor affected areas"]`. -/
theorem recommendations_catalog_split (lookup : String → Option PestSpecies)
    (labels : List String) (preds : List ℚ) :
    ((aiDetection lookup labels preds).detected = true →
      (aiDetection lookup labels preds).recommendations
        = some (match lookup (argmaxLabel labels preds) with
            | some s => splitTreatment s.treatment
            | none => ["Apply treatment"]))
    ∧ ((aiDetectionAlt lookup labels preds).detected = true →
      (aiDetectionAlt lookup labels preds).recommendations
        = some (match lookup (argmaxLabel labels preds) with
            | some s => splitTreatment s.treatment
            | none => ["Apply appropriate treatment", "Monitor affected areas"])) := by
  constructor
  · intro hdet
    by_cases hc : (containsNoPest (argmaxLabel labels preds)
        || (jsLtNum (scaledArgmax preds) 90
            || jsLtNum (jsSubNum (scaledArgmax preds) (scaledSecond preds)) 10)) = true
    · exact absurd hdet (by simp [aiDetection, hc])
    · simp [aiDetection, hc]
  · intro hdet
    by_cases hc : (containsNoPest (argmaxLabel labels preds)
        || (jsLtNum (scaledArgmax preds) 90
            || jsLtNum (jsSubNum (scaledArgmax preds) (scaledSecond preds)) 10)) = true
    · exact absurd hdet (by simp [aiDetectionAlt, hc])
    · simp [aiDetectionAlt, hc]

/-- C5 witness: with a catalog entry for "Rice Black Bug" whose treatment is
"Spray X. Drain the field", the accepted verdict's recommendations are the
two sentence steps; without a catalog entry the variant produces the
two-item fallback. -/
theorem recommendations_catalog_split_witness :
    ((aiDetection
        (fun n => if n = "Rice Black Bug"
          then some ⟨"Rice Black Bug", "Spray X. Drain the field"⟩ else none)
        ["Rice Black Bug", "no pest"] [mkRat 95 100, mkRat 1 100]).recommendations
      = some (match (fun n => if n = "Rice Black Bug"
          then some (⟨"Rice Black Bug", "Spray X. Drain the field"⟩ : PestSpecies) else none)
            (argmaxLabel ["Rice Black Bug", "no pest"] [mkRat 95 100, mkRat 1 100]) with
          | some s => splitTreatment s.treatment
          | none => ["Apply treatment"]))
    ∧ ((aiDetectionAlt (fun _ => none)
        ["Rice Black Bug", "no pest"] [mkRat 95 100, mkRat 1 100]).recommendations
      = some ["Apply appropriate treatment", "Monitor affected areas"]) := by
  constructor
  · exact (recommendations_catalog_split
      (fun n => if n = "Rice Black Bug"
        then some ⟨"Rice Black Bug", "Spray X. Drain the field"⟩ else none)
      ["Rice Black Bug", "no pest"] [mkRat 95 100, mkRat 1 100]).1 (by decide)
  · exact ((recommendations_catalog_split (fun _ => none)
      ["Rice Black Bug", "no pest"] [mkRat 95 100, mkRat 1 100]).2 (by decide)).trans
      (by decide)

/-- C5 counterexample: an accepted verdict whose winning label is absent
from the catalog gets the one-item fallback `["Apply treatment"]` from the
primary service's `aiDetection`, not the claimed two-item list. -/
theorem aiDetection_fallback_single_item :
    (aiDetection (fun _ => none) ["Rice Black Bug", "no pest"]
        [mkRat 95 100, mkRat 1 100]).detected = true
    ∧ (aiDetection (fun _ => none) ["Rice Black Bug", "no pest"]
        [mkRat 95 100, mkRat 1 100]).recommendations = some ["Apply treatment"]
    ∧ (["Apply treatment"] : List String)
        ≠ ["Apply appropriate treatment", "Monitor affected areas"] := by decide

/-- The spec's prescribed edge-case semantics for a one-class verdict:
treat `secondConfidence` as 0 and apply the standard sentinel /
confidence / margin rejection rule.  Stated from the spec's words, for
comparison with what the code computes. -/
def specSecondZeroDetected (label : String) (q : ℚ) : Bool :=
  !(containsNoPest label
    || (decide (jsRound100 q < 90) || decide (jsRound100 q - 0 < 10)))

theorem maxIndexQ_singleton (q : ℚ) : maxIndexQ [q] = some 0 := by
  simp [maxIndexQ, listMaxQ, idxOfQ]

/-- C6 (amended): on a one-class score vector the computed
`secondConfidence` is JS `NaN` (modelled `none`), not 0; since every
comparison against `NaN` is false the margin rule then never rejects, so
the decision degenerates to the sentinel and confidence-below-90 tests —
which coincides with the spec's treat-as-0 semantics.  No error is raised:
`aiDetection` still returns an ordinary result (see the counterexample for
the claimed `ClassifierUnavailable`-class error). -/
theorem one_class_vector_semantics (lookup : String → Option PestSpecies)
    (label : String) (q : ℚ) :
    scaledSecond [q] = none
    ∧ (aiDetection lookup [label] [q]).detected
        = !(containsNoPest label || decide (jsRound100 q < 90))
    ∧ (aiDetection lookup [label] [q]).detected = specSecondZeroDetected label q := by
  have hs : scaledSecond [q] = none := by simp [scaledSecond, sortDesc, insertDesc]
  have hm := maxIndexQ_singleton q
  have ha : scaledArgmax [q] = some (jsRound100 q) := by simp [scaledArgmax, hm]
  have hl : argmaxLabel [label] [q] = label := by simp [argmaxLabel, hm]
  have hdrop : (decide (jsRound100 q < 90) || decide (jsRound100 q < 10))
      = decide (jsRound100 q < 90) := by
    by_cases h90 : jsRound100 q < 90
    · simp [h90]
    · have h10 : ¬ jsRound100 q < 10 := by omega
      simp [h90, h10]
  refine ⟨hs, ?_, ?_⟩
  · cases hc : (containsNoPest label || decide (jsRound100 q < 90)) <;>
      simp [aiDetection, hs, ha, hl, jsSubNum, jsLtNum, hc]
  · cases hc : (containsNoPest label || decide (jsRound100 q < 90)) <;>
      simp [aiDetection, specSecondZeroDetected, hs, ha, hl, jsSubNum, jsLtNum,
        sub_zero, hdrop, hc]

/-- C6 counterexample: the one-entry score vector `[0.95]` (shorter than 2)
does not raise any `ClassifierUnavailable`-class error — `aiDetection`
silently returns an accepted detection. -/
theorem one_class_vector_silent_pass :
    (aiDetection (fun _ => none) ["Rice Black Bug"] [mkRat 95 100]).detected = true
    ∧ (aiDetection (fun _ => none) ["Rice Black Bug"] [mkRat 95 100]).confidence
        = some 95
    ∧ (aiDetection (fun _ => none) ["Rice Black Bug"] [mkRat 95 100]).rawScores
        = some [mkRat 95 100] := by decide

/-- Reachability invariant of the scan controller: the timer count mirrors
the `scanningInterval` field, and an idle controller holds no interval. -/
def svcInv (s : SvcState) : Prop :=
  s.activeTimers = (if s.intervalSet then 1 else 0)
  ∧ (s.isScanning = false → s.intervalSet = false)

theorem applySvcOp_inv {s : SvcState} (hInv : svcInv s) (op : SvcOp) :
    svcInv (applySvcOp s op) := by
  obtain ⟨h1, h2⟩ := hInv
  cases op with
  | start initOk spawnOk =>
    cases hsc : s.isScanning with
    | true => simpa [applySvcOp, svcStart, hsc] using ⟨h1, h2⟩
    | false =>
      have hset : s.intervalSet = false := h2 hsc
      have hz : s.activeTimers = 0 := by rw [h1, hset]; rfl
      cases initOk with
      | false => simpa [applySvcOp, svcStart, hsc] using ⟨h1, h2⟩
      | true =>
        cases spawnOk with
        | false =>
          refine ⟨?_, ?_⟩ <;> simp [applySvcOp, svcStart, hsc, hset, hz]
        | true =>
          refine ⟨?_, ?_⟩ <;> simp [applySvcOp, svcStart, hsc, hset, hz]
  | stop =>
    cases hsc : s.isScanning with
    | false => simpa [applySvcOp, svcStop, hsc] using ⟨h1, h2⟩
    | true =>
      cases hset : s.intervalSet with
      | false =>
        have hz : s.activeTimers = 0 := by rw [h1, hset]; rfl
        refine ⟨?_, ?_⟩ <;> simp [applySvcOp, svcStop, hsc, hset, hz]
      | true =>
        have ho : s.activeTimers = 1 := by rw [h1, hset]; rfl
        refine ⟨?_, ?_⟩ <;> simp [applySvcOp, svcStop, hsc, hset, ho]

theorem svcRun_inv (ops : List SvcOp) : svcInv (svcRun ops) := by
  have hgen : ∀ (l : List SvcOp) (s : SvcState), svcInv s →
      svcInv (l.foldl applySvcOp s) := by
    intro l
    induction l with
    | nil => intro s hs; exact hs
    | cons op l ih => intro s hs; exact ih _ (applySvcOp_inv hs op)
  exact hgen ops svcInit ⟨rfl, fun _ => rfl⟩

/-- C7: `startContinuousScanning` is idempotent and `stopContinuousScanning`
is a no-op when idle: after any call sequence at most one scanning interval
is active; a second completed `start` right after a successful one changes
nothing; `stop` on an idle controller changes nothing; and `stop` after any
call sequence cancels the interval and returns the controller to idle with
no timer left. -/
theorem start_stop_lifecycle :
    (∀ ops : List SvcOp, (svcRun ops).activeTimers ≤ 1)
    ∧ (∀ s : SvcState, s.isScanning = false → svcStop s = s)
    ∧ (∀ (s : SvcState) (sp1 initOk2 sp2 : Bool),
        svcStart initOk2 sp2 (svcStart true sp1 s) = svcStart true sp1 s)
    ∧ (∀ ops : List SvcOp, (svcStop (svcRun ops)).isScanning = false
        ∧ (svcStop (svcRun ops)).intervalSet = false
        ∧ (svcStop (svcRun ops)).activeTimers = 0) := by
  refine ⟨?_, ?_, ?_, ?_⟩
  · intro ops
    have h1 := (svcRun_inv ops).1
    rw [h1]
    cases (svcRun ops).intervalSet <;> simp
  · intro s hs
    simp [svcStop, hs]
  · intro s sp1 initOk2 sp2
    have hfix : ∀ (i sp : Bool) (t : SvcState), t.isScanning = true →
        svcStart i sp t = t := by
      intro i sp t ht
      simp [svcStart, ht]
    cases hsc : s.isScanning with
    | true =>
      rw [hfix true sp1 s hsc, hfix initOk2 sp2 s hsc]
    | false =>
      have hscan : (svcStart true sp1 s).isScanning = true := by
        cases sp1 <;> simp [svcStart, hsc]
      exact hfix initOk2 sp2 _ hscan
  · intro ops
    obtain ⟨h1, h2⟩ := svcRun_inv ops
    cases hsc : (svcRun ops).isScanning with
    | false =>
      have hset := h2 hsc
      have hz : (svcRun ops).activeTimers = 0 := by rw [h1, hset]; rfl
      refine ⟨?_, ?_, ?_⟩ <;> simp [svcStop, hsc, hset, hz]
    | true =>
      cases hset : (svcRun ops).intervalSet with
      | false =>
        have hz : (svcRun ops).activeTimers = 0 := by rw [h1, hset]; rfl
        refine ⟨?_, ?_, ?_⟩ <;> simp [svcStop, hsc, hset, hz]
      | true =>
        have ho : (svcRun ops).activeTimers = 1 := by rw [h1, hset]; rfl
        refine ⟨?_, ?_, ?_⟩ <;> simp [svcStop, hsc, hset, ho]

/-- C7 witness: stopping the idle controller changes nothing, and two
consecutive starts leave at most one active interval timer. -/
theorem start_stop_lifecycle_witness :
    svcStop svcInit = svcInit
    ∧ (svcRun [SvcOp.start true true, SvcOp.start true true]).activeTimers ≤ 1 := by
  exact ⟨start_stop_lifecycle.2.1 svcInit rfl,
    start_stop_lifecycle.1 [SvcOp.start true true, SvcOp.start true true]⟩

theorem runLoopRegions_skip (classify : CocoDet → Except String DetectionResult) :
    ∀ dets : List CocoDet,
      (∀ d ∈ dets, d.score < hookMinConfidence
        ∨ allowedCocoClasses.contains d.cls = false) →
      runLoopRegions classify dets = ([], 0) := by
  intro dets
  induction dets with
  | nil => intro _; rfl
  | cons d rest ih =>
    intro hall
    have ihrest := ih fun x hx => hall x (List.mem_cons_of_mem d hx)
    by_cases hs : d.score < hookMinConfidence
    · simp [runLoopRegions, hs, ihrest]
    · rcases hall d (List.mem_cons_self d rest) with h | h
      · exact absurd h hs
      · have hmem : d.cls ∉ allowedCocoClasses := by simpa using h
        simp [runLoopRegions, hs, hmem, ihrest]

/-- C8 (amended): a frame with zero qualifying regions never reaches the
classifier.  In the `usePestDetection` hook loop, zero COCO proposals — or
proposals that all miss the score threshold or the class allow-list — give
zero `analyzeImage` calls but also emit NO event at all (not the claimed
`detected=false` event, see the counterexample); only the `part_002` native
scan loop short-circuits zero localizer boxes to a `detected=false` event
with empty `boundingBoxes` (that path contains no classifier stage). -/
theorem zero_regions_policy :
    (∀ (classify : CocoDet → Except String DetectionResult) (cam cocoL : Bool)
        (capture : Except String Photo),
      runLoopIteration cam cocoL capture (.ok []) classify = ([], 0))
    ∧ (∀ (classify : CocoDet → Except String DetectionResult) (photo : Photo)
        (dets : List CocoDet),
        (∀ d ∈ dets, d.score < hookMinConfidence
          ∨ allowedCocoClasses.contains d.cls = false) →
        runLoopIteration true true (.ok photo) (.ok dets) classify = ([], 0))
    ∧ (∀ (lookup : String → Option PestSpecies) (photo : Photo) (st : ScanState)
        (b : String),
        st.isProcessing = false → photo.base64 = some b →
        nativeScanTickV2 lookup true (.ok photo) (.ok []) st
          = ({ st with isProcessing := false },
             [{ detected := false
                pestType := none
                confidence := some 0
                recommendations := some []
                species := none
                rawScores := none
                boundingBoxes := some [] }])) := by
  refine ⟨?_, ?_, ?_⟩
  · intro classify cam cocoL capture
    cases capture with
    | error e => cases cam <;> cases cocoL <;> simp [runLoopIteration]
    | ok photo =>
      cases hb : photo.base64 with
      | none => cases cam <;> cases cocoL <;> simp [runLoopIteration, hb]
      | some b => cases cam <;> cases cocoL <;> simp [runLoopIteration, hb]
  · intro classify photo dets hall
    have hskip := runLoopRegions_skip classify dets hall
    cases hb : photo.base64 with
    | none => simp [runLoopIteration, hb]
    | some b =>
      by_cases hlen : dets.length = 0
      · simp [runLoopIteration, hb, hlen]
      · simp [runLoopIteration, hb, hlen, hskip]
  · intro lookup photo st b hst hb
    simp [nativeScanTickV2, hst, hb]

/-- C8 witness: unqualifying COCO proposals (class outside the allow-list)
give zero classifier calls and no event in the hook loop, and the `part_002`
native loop turns zero localizer boxes into a `detected=false` event with
empty boxes. -/
theorem zero_regions_policy_witness :
    runLoopIteration true true (.ok ⟨some "b64", "frame.jpg"⟩)
        (.ok [⟨[0, 0, 10, 10], "person", mkRat 9 10⟩])
        (fun _ => .error "classifier must not run") = ([], 0)
    ∧ nativeScanTickV2 (fun _ => none) true (.ok ⟨some "b64", "frame.jpg"⟩)
        (.ok []) ⟨true, false⟩
        = (⟨true, false⟩,
           [{ detected := false
              pestType := none
              confidence := some 0
              recommendations := some []
              species := none
              rawScores := none
              boundingBoxes := some [] }]) := by
  constructor
  · exact zero_regions_policy.2.1 (fun _ => .error "classifier must not run")
      ⟨some "b64", "frame.jpg"⟩ [⟨[0, 0, 10, 10], "person", mkRat 9 10⟩] (by decide)
  · exact zero_regions_policy.2.2 (fun _ => none) ⟨some "b64", "frame.jpg"⟩
      ⟨true, false⟩ "b64" rfl rfl

/-- C8 counterexample: in the `usePestDetection` hook loop a frame with zero
localizer proposals emits NO event at all — the event list is empty, so no
`detected=false` event is delivered for that frame. -/
theorem hookLoop_zero_regions_emits_nothing :
    runLoopIteration true true (.ok ⟨some "b64", "frame.jpg"⟩) (.ok [])
        (fun _ => .ok { detected := true
                        pestType := some "Grasshoppers"
                        confidence := some 99
                        recommendations := some []
                        species := none
                        rawScores := none
                        boundingBoxes := none }) = ([], 0) := by decide

/-- C9 (amended): the web scan loop's fan-out wraps every observer callback
in its own `try`/`catch`, so every registered observer is invoked for every
event; the native scan loop's fan-out has no per-observer guard, so
delivery runs through the throw-free prefix and stops at the first throwing
observer (later observers are skipped; the loop-level `catch` only keeps
the loop alive). -/
theorem dispatch_per_observer_isolation :
    (∀ cbs : List Bool, dispatchWeb cbs = cbs.length)
    ∧ (∀ cbs : List Bool, (∀ b ∈ cbs, b = false) → dispatchNative cbs = cbs.length)
    ∧ (∀ pre post : List Bool, (∀ b ∈ pre, b = false) →
        dispatchNative (pre ++ true :: post) = pre.length + 1) := by
  refine ⟨?_, ?_, ?_⟩
  · intro cbs
    induction cbs with
    | nil => rfl
    | cons b rest ih => simp [dispatchWeb, ih]; omega
  · intro cbs
    induction cbs with
    | nil => intro _; rfl
    | cons b rest ih =>
      intro hall
      have hb : b = false := hall b (List.mem_cons_self b rest)
      have ihrest := ih fun x hx => hall x (List.mem_cons_of_mem b hx)
      simp [dispatchNative, hb, ihrest]
      omega
  · intro pre post
    induction pre with
    | nil => intro _; simp [dispatchNative]
    | cons b pre' ih =>
      intro hall
      have hb : b = false := hall b (List.mem_cons_self b pre')
      have ihrest := ih fun x hx => hall x (List.mem_cons_of_mem b hx)
      simp [dispatchNative, hb, ihrest]
      omega

/-- C9 witness: with two throw-free observers the native fan-out reaches
both; the web fan-out reaches both observers even when the first throws;
and a throwing observer after one throw-free observer still leaves the
native delivery count at 2 (the thrower itself is entered). -/
theorem dispatch_per_observer_isolation_witness :
    dispatchWeb [true, false] = 2
    ∧ dispatchNative [false, false] = 2
    ∧ dispatchNative [false, true, false] = 2 := by
  refine ⟨?_, ?_, ?_⟩
  · exact dispatch_per_observer_isolation.1 [true, false]
  · exact dispatch_per_observer_isolation.2.1 [false, false] (by decide)
  · exact dispatch_per_observer_isolation.2.2 [false] [false] (by decide)

/-- C9 counterexample: two registered observers, the first throws: the
native scan loop's fan-out invokes only 1 of the 2, so the second observer
never receives the event (the web fan-out reaches both). -/
theorem nativeDispatch_stops_at_thrower :
    dispatchNative [true, false] = 1
    ∧ dispatchWeb [true, false] = 2
    ∧ (1 : Nat) ≠ 2 := by decide

/-- At most one registration per callback — the registry invariant. -/
def cbInv (cbs : List Nat) : Prop := ∀ f : Nat, cbs.count f ≤ 1

theorem applyCbOp_inv {cbs : List Nat} (h : cbInv cbs) (op : CbOp) :
    cbInv (applyCbOp cbs op) := by
  cases op with
  | add f =>
    intro g
    by_cases hmem : f ∈ cbs
    · simpa [applyCbOp, addDetectionCallback, hmem] using h g
    · by_cases hg : g = f
      · subst hg
        have hz : cbs.count g = 0 := List.count_eq_zero_of_not_mem hmem
        simp [applyCbOp, addDetectionCallback, hmem, List.count_append, hz]
      · have hone : List.count g [f] = 0 := by
          rw [List.count_eq_zero, List.mem_singleton]
          exact hg
        have hcalc : (cbs ++ [f]).count g = cbs.count g := by
          rw [List.count_append, hone, Nat.add_zero]
        simpa [applyCbOp, addDetectionCallback, hmem, hcalc] using h g
  | remove f =>
    intro g
    have hsub : (cbs.filter fun cb => cb ≠ f).count g ≤ cbs.count g :=
      (List.filter_sublist cbs).count_le g
    exact le_trans (by simpa [applyCbOp, removeDetectionCallback] using hsub) (h g)

theorem runCbOps_inv (ops : List CbOp) : cbInv (runCbOps ops) := by
  have hgen : ∀ (l : List CbOp) (cbs : List Nat), cbInv cbs →
      cbInv (l.foldl applyCbOp cbs) := by
    intro l
    induction l with
    | nil => intro cbs hs; exact hs
    | cons op l ih => intro cbs hs; exact ih _ (applyCbOp_inv hs op)
  exact hgen ops [] fun f => by simp

/-- C10: callback registration is idempotent and removal is complete:
adding an already-registered callback leaves the list unchanged; after any
sequence of registry calls each callback appears at most once (so the
per-entry fan-out invokes no observer twice for one event);
`removeDetectionCallback` removes every occurrence of the callback (so a
removed callback receives no further events); and removal does not disturb
the other registered callbacks. -/
theorem callback_registry_semantics :
    (∀ (cbs : List Nat) (f : Nat), cbs.contains f = true →
      addDetectionCallback cbs f = cbs)
    ∧ (∀ (ops : List CbOp) (f : Nat), (runCbOps ops).count f ≤ 1)
    ∧ (∀ (cbs : List Nat) (f : Nat), (removeDetectionCallback cbs f).count f = 0)
    ∧ (∀ (cbs : List Nat) (f g : Nat), g ≠ f →
        (removeDetectionCallback cbs f).count g = cbs.count g) := by
  refine ⟨?_, ?_, ?_, ?_⟩
  · intro cbs f hc
    have hmem : f ∈ cbs := by simpa [List.contains] using hc
    simp [addDetectionCallback, hmem]
  · intro ops f
    exact runCbOps_inv ops f
  · intro cbs f
    rw [List.count_eq_zero]
    intro hmem
    have hne := (List.mem_filter.mp hmem).2
    simp at hne
  · intro cbs f g hgf
    induction cbs with
    | nil => rfl
    | cons c rest ih =>
      by_cases hcf : c = f
      · subst hcf
        have hstep : removeDetectionCallback (c :: rest) c
            = removeDetectionCallback rest c := by
          simp [removeDetectionCallback]
        rw [hstep, ih]
        simp [List.count_cons, hgf]
      · have hstep : removeDetectionCallback (c :: rest) f
            = c :: removeDetectionCallback rest f := by
          simp [removeDetectionCallback, hcf]
        rw [hstep, List.count_cons, List.count_cons, ih]

/-- C10 witness: re-adding a registered callback changes nothing; double
registration attempts leave at most one entry; removal empties every
occurrence and keeps the other callbacks. -/
theorem callback_registry_semantics_witness :
    addDetectionCallback [5] 5 = [5]
    ∧ (runCbOps [CbOp.add 1, CbOp.add 1]).count 1 ≤ 1
    ∧ (removeDetectionCallback [1, 2, 1] 1).count 1 = 0
    ∧ (removeDetectionCallback [1, 2, 1] 1).count 2 = [1, 2, 1].count 2 := by
  exact ⟨callback_registry_semantics.1 [5] 5 (by decide),
    callback_registry_semantics.2.1 [CbOp.add 1, CbOp.add 1] 1,
    callback_registry_semantics.2.2.1 [1, 2, 1] 1,
    callback_registry_semantics.2.2.2 [1, 2, 1] 1 2 (by decide)⟩
